import Mathlib

/-!
Verification model of the ClickhouseWriter batching / retry subsystem
(`worker/src/services/ClickhouseWriter/index.ts`).

Strings of the host language are modelled as lists of characters (`Str`),
records as a structure holding the size-sensitive fields (`input`, `output`,
`metadata`) together with an id, and thrown values as `JsError` (anything can
be thrown; only truthy objects carry a usable `message`).  The flush cycle's
in-attempt retry loop (the `backOff` call with its `retry` callback) is
modelled by `runBackOff`, driven by an oracle `outcomes : Nat → Option JsError`
giving the result of each call to the backing store (`none` = success,
`some e` = the call threw `e`).  The value-level model maintains the
JavaScript aliasing invariant that `recordsToWrite` and the `data` fields of
`queueItems` are the same objects: the size-error truncation branch therefore
updates both.  A separate explicit-heap model (`Heap`, `truncateAllH`) is used
to reason about in-place mutation itself.
-/

/-- Host strings, modelled as lists of characters. -/
abbrev Str : Type := List Char

/-- `const maxFieldSize = 1024 * 1024` in `truncateOversizedRecord`. -/
def maxFieldSize : Nat := 1024 * 1024

/-- The prefix kept by truncation: `value.substring(0, 500 * 1024)`. -/
def truncKeepSize : Nat := 500 * 1024

/-- `const truncationMessage = "[TRUNCATED: Field exceeded size limit]"`. -/
def truncationMessage : Str := "[TRUNCATED: Field exceeded size limit]".data

/-- The helper `truncateField` of `truncateOversizedRecord`:
`if (!value) return value || null;` (falsy value, i.e. absent or empty,
comes back as null), `if (value.length > maxFieldSize) return
value.substring(0, 500*1024) + truncationMessage; return value;`. -/
def truncateField : Option Str → Option Str
  | none => none
  | some v =>
    if v = [] then none
    else if maxFieldSize < v.length then some (v.take truncKeepSize ++ truncationMessage)
    else some v

/-- One record of any of the destination tables, restricted to the fields the
writer inspects: the id and the size-sensitive fields.  `none` stands for an
absent or null field. -/
structure WriteRecord where
  id : String
  input : Option Str
  output : Option Str
  metadata : Option (List (String × Str))
deriving DecidableEq, Repr

/-- The guarded top-level field update of `truncateOversizedRecord`:
`if ("input" in record && record.input && record.input.length > maxFieldSize)
record.input = truncateField(record.input)` (identically for `output`). -/
def truncTop (v : Option Str) : Option Str :=
  match v with
  | some s => if s ≠ [] ∧ maxFieldSize < s.length then truncateField (some s) else some s
  | none => none

/-- One iteration of the metadata loop of `truncateOversizedRecord`:
`if (value && value.length > maxFieldSize) out[key] = truncateField(value) || "";
else out[key] = value;`. -/
def truncMetaEntry (kv : String × Str) : String × Str :=
  if kv.2 ≠ [] ∧ maxFieldSize < kv.2.length then
    (kv.1, (truncateField (some kv.2)).getD [])
  else kv

/-- `truncateOversizedRecord` (lines 199-269): truncates the `input`,
`output` and `metadata` fields of a record when they exceed `maxFieldSize`.
In the source this mutates `record` in place and returns it; here the
value-level result. -/
def truncateOversizedRecord (r : WriteRecord) : WriteRecord :=
  { r with
    input := truncTop r.input
    output := truncTop r.output
    metadata := r.metadata.map (fun l => l.map truncMetaEntry) }

/-- An entry of a destination queue: `{ createdAt, attempts, data }`. -/
structure Item where
  createdAt : Nat
  attempts : Nat
  data : WriteRecord
deriving DecidableEq, Repr

/-- A thrown JavaScript value: `null`, `undefined`, a bare string, a number,
a boolean, or an object whose `message` property is an optional string. -/
inductive JsError where
  | nullv
  | undef
  | str (s : Str)
  | num (n : Int)
  | boolv (b : Bool)
  | obj (message : Option Str)
deriving DecidableEq, Repr

/-- Lower-casing of a host string (`message.toLowerCase()`). -/
def toLowerStr (s : Str) : Str := s.map Char.toLower

/-- Substring test, `haystack.includes(needle)`. -/
def containsSub (hay needle : Str) : Bool :=
  needle.isPrefixOf hay ||
    match hay with
    | [] => false
    | _ :: t => containsSub t needle

/-- The value of `(error as Error).message?.toLowerCase() || ""` for a truthy
object; the classification predicates only reach it behind the guard
`!error || typeof error !== "object"`. -/
def errorMessageLower (message : Option Str) : Str :=
  toLowerStr (message.getD [])

/-- `isRetryableError` (lines 125-132): non-objects are never retryable; an
object is retryable when its lower-cased message contains "socket hang up". -/
def isRetryableError (e : JsError) : Bool :=
  match e with
  | .obj m => containsSub (errorMessageLower m) "socket hang up".data
  | _ => false

/-- `isSizeError` (lines 134-145): the lower-cased message must contain all
three ClickHouse too-large phrases. -/
def isSizeError (e : JsError) : Bool :=
  match e with
  | .obj m =>
    containsSub (errorMessageLower m) "size of json object".data &&
    containsSub (errorMessageLower m) "extremely large".data &&
    containsSub (errorMessageLower m) "expected not greater than".data
  | _ => false

/-- `isStringLengthError` (lines 147-154): the lower-cased message contains
the Node.js phrase "invalid string length". -/
def isStringLengthError (e : JsError) : Bool :=
  match e with
  | .obj m => containsSub (errorMessageLower m) "invalid string length".data
  | _ => false

/-- The four error categories of the retry policy. -/
inductive ErrorClass where
  | retryable
  | stringOverflow
  | oversizedPayload
  | fatal
deriving DecidableEq, Repr

/-- The classification implicit in the ordered tests of the `retry` callback
(lines 309-387): retryable first, then string-length, then size, defaulting
to fatal. -/
def classify (e : JsError) : ErrorClass :=
  if isRetryableError e then .retryable
  else if isStringLengthError e then .stringOverflow
  else if isSizeError e then .oversizedPayload
  else .fatal

example : classify (.obj (some "socket hang up".data)) = .retryable := by decide
example : classify (.obj (some "Invalid string length".data)) = .stringOverflow := by decide
example : classify (.str "boom".data) = .fatal := by decide

/-- `handleStringLengthError` (lines 163-197).  A single-item batch falls back
to truncation (`{ ...queueItems[0], data: truncatedRecord }`, where the source
truncates the record object in place); otherwise the batch is split at
`Math.floor(length / 2)` into items retried now and items to be requeued. -/
def handleStringLengthError (queueItems : List Item) : List Item × List Item :=
  match queueItems with
  | [it] => ([{ it with data := truncateOversizedRecord it.data }], [])
  | _ =>
    let splitPoint := queueItems.length / 2
    (queueItems.take splitPoint, queueItems.drop splitPoint)

/-- The mutable locals of one `flush` cycle (lines 295-393): the in-flight
`queueItems`, the `recordsToWrite` submitted to the backing store, the
`hasBeenTruncated` flag, and the remaining `entityQueue` the cycle can push
back into. -/
structure FlushState where
  queueItems : List Item
  recordsToWrite : List WriteRecord
  hasBeenTruncated : Bool
  queue : List Item
deriving DecidableEq, Repr

/-- The `retry` callback of the `backOff` call (lines 309-387), as a state
transformer: the returned boolean is the callback's return value, the state
carries its effects.  In the source, `recordsToWrite[i]` and
`queueItems[i].data` are the same object and `truncateOversizedRecord`
mutates it in place, so the size-error branch updates both here. -/
def retryStep (e : JsError) (s : FlushState) : Bool × FlushState :=
  if isRetryableError e then (true, s)
  else if isStringLengthError e then
    let p := handleStringLengthError s.queueItems
    (true,
      { queueItems := p.1
        recordsToWrite := p.1.map (·.data)
        hasBeenTruncated := s.hasBeenTruncated
        queue := p.2 ++ s.queue })
  else if isSizeError e && !s.hasBeenTruncated then
    (true,
      { s with
        queueItems := s.queueItems.map (fun it => { it with data := truncateOversizedRecord it.data })
        recordsToWrite := s.recordsToWrite.map truncateOversizedRecord
        hasBeenTruncated := true })
  else (false, s)

/-- Outcome of the in-attempt loop: success, or the error finally thrown. -/
inductive BackOffEnd where
  | success (s : FlushState)
  | failure (e : JsError) (s : FlushState)
deriving DecidableEq, Repr

/-- The error the backoff library throws when it runs out of attempts without
ever making one (`throw new Error("Something went wrong.")`). -/
def somethingWentWrong : JsError := .obj (some "Something went wrong.".data)

/-- The `backOff` loop of the `exponential-backoff` library, driving the
`retry` callback: each call to the backing store (`writeToClickhouse`) is
resolved by `outcomes` at the running call index; on a failure the callback
runs (its state effects apply even when the loop then gives up), and the loop
continues only while the callback returned true and attempts remain
(`numOfAttempts` = `fuel`).  The second component logs the `recordsToWrite`
passed to each call. -/
def runBackOff (outcomes : Nat → Option JsError) :
    Nat → Nat → FlushState → BackOffEnd × List (List WriteRecord)
  | 0, _, s => (.failure somethingWentWrong s, [])
  | fuel + 1, calls, s =>
    match outcomes calls with
    | none => (.success s, [s.recordsToWrite])
    | some e =>
      let p := retryStep e s
      if p.1 && fuel != 0 then
        let q := runBackOff outcomes fuel (calls + 1) p.2
        (q.1, s.recordsToWrite :: q.2)
      else (.failure e p.2, [s.recordsToWrite])

/-- The catch block of `flush` (lines 416-439): walk the outstanding items in
order, re-adding those with `attempts < maxAttempts` (as a copy with
`attempts + 1`) and counting the rest as dropped. -/
def requeueOrDrop (maxAttempts : Nat) : List Item → List Item × Nat
  | [] => ([], 0)
  | it :: rest =>
    let p := requeueOrDrop maxAttempts rest
    if it.attempts < maxAttempts then
      ({ it with attempts := it.attempts + 1 } :: p.1, p.2)
    else (p.1, p.2 + 1)

/-- Observables of one `flush` call: the destination queue afterwards, the
number of dropped records, the batch handed to each backing-store call, and
the final values of the cycle's locals. -/
structure CycleOutcome where
  queue : List Item
  dropped : Nat
  log : List (List WriteRecord)
  succeeded : Bool
  finalItems : List Item
  finalRecords : List WriteRecord
  truncatedFlag : Bool
  remQueue : List Item
deriving DecidableEq, Repr

/-- The tail of `flush`: on success the cycle just records metrics; on final
failure the catch block (lines 416-439) requeues or drops each outstanding
item via `requeueOrDrop`, appending the requeued copies at the back. -/
def finishCycle (maxAttempts : Nat) :
    BackOffEnd × List (List WriteRecord) → CycleOutcome
  | (.success s, log) =>
    { queue := s.queue, dropped := 0, log := log, succeeded := true
      finalItems := s.queueItems, finalRecords := s.recordsToWrite
      truncatedFlag := s.hasBeenTruncated, remQueue := s.queue }
  | (.failure _ s, log) =>
    { queue := s.queue ++ (requeueOrDrop maxAttempts s.queueItems).1
      dropped := (requeueOrDrop maxAttempts s.queueItems).2
      log := log, succeeded := false
      finalItems := s.queueItems, finalRecords := s.recordsToWrite
      truncatedFlag := s.hasBeenTruncated, remQueue := s.queue }

/-- `flush(tableName, fullQueue)` (lines 271-440) for one destination queue:
return immediately when empty, otherwise splice the first `batchSize` items
(the whole queue when `fullQueue`), run the backoff loop, and finish with
`finishCycle`. -/
def flushCycle (outcomes : Nat → Option JsError) (numOfAttempts maxAttempts batchSize : Nat)
    (fullQueue : Bool) (q0 : List Item) : CycleOutcome :=
  if q0.length = 0 then
    { queue := q0, dropped := 0, log := [], succeeded := true
      finalItems := [], finalRecords := [], truncatedFlag := false, remQueue := q0 }
  else
    let takeN := if fullQueue then q0.length else batchSize
    finishCycle maxAttempts
      (runBackOff outcomes numOfAttempts 0
        { queueItems := q0.take takeN
          recordsToWrite := (q0.take takeN).map (fun it => it.data)
          hasBeenTruncated := false, queue := q0.drop takeN })

/-- `addToQueue` (lines 442-460): push `{ createdAt: Date.now(), attempts: 1,
data }` at the back; the boolean reports whether the threshold flush fires
(`entityQueue.length >= this.batchSize` after the push). -/
def addToQueue (batchSize : Nat) (now : Nat) (entityQueue : List Item) (data : WriteRecord) :
    List Item × Bool :=
  let q := entityQueue ++ [{ createdAt := now, attempts := 1, data := data }]
  (q, decide (batchSize ≤ q.length))

/-- The eight destination tables of the writer (`enum TableName`). -/
inductive TableName where
  | traces
  | tracesNull
  | scores
  | observations
  | observationsBatchStaging
  | blobStorageFileLog
  | datasetRunItems
  | events
deriving DecidableEq, Repr

/-- The writer's mutable state relevant to shutdown: one queue per
destination, and whether the repeating interval timer is installed. -/
structure WriterState where
  queue : TableName → List Item
  intervalActive : Bool

/-- `flushAll(fullQueue)` (lines 102-123): one `flush` per destination, each
driven by its own backing-store oracle. -/
def flushAllQueues (oracles : TableName → Nat → Option JsError)
    (numOfAttempts maxAttempts batchSize : Nat) (fullQueue : Bool)
    (q : TableName → List Item) : TableName → CycleOutcome :=
  fun t => flushCycle (oracles t) numOfAttempts maxAttempts batchSize fullQueue (q t)

/-- `shutdown()` (lines 89-100): clear the interval timer, then await one
`flushAll(true)` full drain; returns the writer state afterwards together
with each destination's cycle outcome. -/
def shutdownWriter (oracles : TableName → Nat → Option JsError)
    (numOfAttempts maxAttempts batchSize : Nat) (w : WriterState) :
    WriterState × (TableName → CycleOutcome) :=
  let outs := flushAllQueues oracles numOfAttempts maxAttempts batchSize true w.queue
  ({ queue := fun t => (outs t).queue, intervalActive := false }, outs)

/-! Explicit-heap model of the truncation paths, to reason about in-place
mutation.  JavaScript records are heap objects reached through references;
a queue item stores a reference (`dataRef`), and
`recordsToWrite = queueItems.map(item => item.data)` copies references, not
objects. -/

/-- A heap of record objects, addressed by reference. -/
def Heap : Type := Nat → WriteRecord

/-- Heap update at one reference. -/
def hset (h : Heap) (r : Nat) (v : WriteRecord) : Heap :=
  fun i => if i = r then v else h i

/-- A queue item as it exists on the heap: it holds a reference to its
record object, not a copy of it. -/
structure HItem where
  createdAt : Nat
  attempts : Nat
  dataRef : Nat
deriving DecidableEq, Repr

/-- Heap semantics of `truncateOversizedRecord`: the source assigns
`record.input = ...` etc. on the passed object and returns that same object,
so the heap cell is overwritten and the reference comes back unchanged. -/
def truncateOversizedRecordH (h : Heap) (r : Nat) : Heap × Nat :=
  (hset h r (truncateOversizedRecord (h r)), r)

/-- Heap semantics of the size-error branch
`recordsToWrite = recordsToWrite.map((record) => truncateOversizedRecord(tableName, record))`
(lines 368-370): each referenced object is truncated in place; the reference
list itself is rebuilt with the same references. -/
def truncateAllH : Heap → List Nat → Heap × List Nat
  | h, [] => (h, [])
  | h, r :: rest =>
    let p := truncateOversizedRecordH h r
    let q := truncateAllH p.1 rest
    (q.1, p.2 :: q.2)

/-! Concrete sample values used by witnesses and counterexamples. -/

/-- A retryable error thrown by the backing store. -/
def socketErr : JsError := .obj (some "socket hang up".data)

/-- A ClickHouse oversized-payload error. -/
def sizeErr : JsError :=
  .obj (some "Size of JSON object is extremely large, expected not greater than 26214400".data)

/-- A Node.js string-overflow error. -/
def strLenErr : JsError := .obj (some "Invalid string length".data)

/-- An error matching none of the known signatures. -/
def fatalErr : JsError := .obj (some "table does not exist".data)

/-- A small record with all size-sensitive fields under the threshold. -/
def recA : WriteRecord :=
  { id := "a", input := some "hello".data, output := none, metadata := none }

/-- A second small record. -/
def recB : WriteRecord :=
  { id := "b", input := none, output := some "world".data, metadata := none }

/-- An `input` value exceeding `maxFieldSize` by one character. -/
def bigStr : Str := List.replicate (maxFieldSize + 1) 'a'

/-- A record whose `input` field exceeds the truncation threshold. -/
def bigRec : WriteRecord :=
  { id := "big", input := some bigStr, output := none, metadata := none }

/-- Sample queue items. -/
def itemA : Item := { createdAt := 0, attempts := 1, data := recA }

/-- A second sample item. -/
def itemB : Item := { createdAt := 1, attempts := 1, data := recB }

/-- A third sample item. -/
def itemC : Item := { createdAt := 2, attempts := 1, data := recA }

/-- A fourth sample item. -/
def itemD : Item := { createdAt := 3, attempts := 1, data := recB }

/-- An item that has already been through `maxAttempts = 3` cycles. -/
def itemOld : Item := { createdAt := 0, attempts := 3, data := recA }

/-- A heap whose every cell is the oversized record. -/
def bigHeap : Heap := fun _ => bigRec

/-- An on-heap queue item pointing at reference 0. -/
def hItem0 : HItem := { createdAt := 0, attempts := 1, dataRef := 0 }

/-- An oracle that always succeeds. -/
def oracleOk : Nat → Option JsError := fun _ => none

/-- An oracle that fails once with a retryable error, then succeeds. -/
def oracleRetryOnce : Nat → Option JsError :=
  fun i => if i = 0 then some socketErr else none

/-- Per-destination oracles that always succeed. -/
def oraclesOk : TableName → Nat → Option JsError := fun _ => oracleOk

/-- A writer with two queued items in every destination and a live timer. -/
def wSample : WriterState := { queue := fun _ => [itemA, itemB], intervalActive := true }

/-! General lemmas about the truncation codec. -/

theorem truncationMessage_length : truncationMessage.length = 38 := by decide

theorem truncateField_big {s : Str} (h : maxFieldSize < s.length) :
    truncateField (some s) = some (s.take truncKeepSize ++ truncationMessage) := by
  have hne : s ≠ [] := by
    intro he
    rw [he] at h
    simp [maxFieldSize] at h
  simp [truncateField, hne, h]

theorem truncTop_small {s : Str} (h : s.length ≤ maxFieldSize) :
    truncTop (some s) = some s := by
  have h' : ¬ maxFieldSize < s.length := by omega
  simp [truncTop, h']

theorem truncTop_big {s : Str} (h : maxFieldSize < s.length) :
    truncTop (some s) = some (s.take truncKeepSize ++ truncationMessage) := by
  have hne : s ≠ [] := by
    intro he
    rw [he] at h
    simp [maxFieldSize] at h
  simp [truncTop, hne, h, truncateField_big h]

theorem length_trunc_result (s : Str) :
    (s.take truncKeepSize ++ truncationMessage).length ≤ maxFieldSize := by
  have h1 : (s.take truncKeepSize).length ≤ truncKeepSize := by
    rw [List.length_take]
    exact min_le_left _ _
  have h2 : truncationMessage.length = 38 := truncationMessage_length
  rw [List.length_append]
  simp only [truncKeepSize, maxFieldSize] at h1 ⊢
  omega

theorem truncTop_length {v : Option Str} {s' : Str} (h : truncTop v = some s') :
    s'.length ≤ maxFieldSize := by
  match v with
  | none => simp [truncTop] at h
  | some s =>
    by_cases hb : maxFieldSize < s.length
    · rw [truncTop_big hb] at h
      injection h with h
      rw [← h]
      exact length_trunc_result s
    · rw [truncTop_small (Nat.le_of_not_lt hb)] at h
      injection h with h
      rw [← h]
      exact Nat.le_of_not_lt hb

theorem truncTop_idem (v : Option Str) : truncTop (truncTop v) = truncTop v := by
  cases hv : truncTop v with
  | none => rfl
  | some s' => exact truncTop_small (truncTop_length hv)

theorem truncMetaEntry_small {kv : String × Str} (h : kv.2.length ≤ maxFieldSize) :
    truncMetaEntry kv = kv := by
  unfold truncMetaEntry
  rw [if_neg]
  rintro ⟨-, hlt⟩
  omega

theorem truncMetaEntry_big {kv : String × Str} (h : maxFieldSize < kv.2.length) :
    truncMetaEntry kv = (kv.1, kv.2.take truncKeepSize ++ truncationMessage) := by
  have hne : kv.2 ≠ [] := by
    intro he
    rw [he] at h
    simp [maxFieldSize] at h
  unfold truncMetaEntry
  rw [if_pos ⟨hne, h⟩, truncateField_big h]
  rfl

theorem truncMetaEntry_length (kv : String × Str) :
    (truncMetaEntry kv).2.length ≤ maxFieldSize := by
  by_cases h : maxFieldSize < kv.2.length
  · rw [truncMetaEntry_big h]
    exact length_trunc_result _
  · rw [truncMetaEntry_small (Nat.le_of_not_lt h)]
    exact Nat.le_of_not_lt h

theorem truncMetaEntry_idem (kv : String × Str) :
    truncMetaEntry (truncMetaEntry kv) = truncMetaEntry kv :=
  truncMetaEntry_small (truncMetaEntry_length kv)

theorem metaList_idem (l : List (String × Str)) :
    (l.map truncMetaEntry).map truncMetaEntry = l.map truncMetaEntry := by
  induction l with
  | nil => rfl
  | cons kv t ih => simp [truncMetaEntry_idem, ih]

theorem truncateOversizedRecord_idem (r : WriteRecord) :
    truncateOversizedRecord (truncateOversizedRecord r) = truncateOversizedRecord r := by
  obtain ⟨i, inp, out, md⟩ := r
  simp only [truncateOversizedRecord, truncTop_idem]
  cases md with
  | none => rfl
  | some l => simp [metaList_idem, truncMetaEntry_idem]

/-! General lemmas about the heap model of truncation. -/

theorem truncateAllH_refs (h : Heap) (rs : List Nat) : (truncateAllH h rs).2 = rs := by
  induction rs generalizing h with
  | nil => rfl
  | cons r t ih => simp [truncateAllH, truncateOversizedRecordH, ih]

theorem truncateAllH_frame (h : Heap) (rs : List Nat) (x : Nat) (hx : x ∉ rs) :
    (truncateAllH h rs).1 x = h x := by
  induction rs generalizing h with
  | nil => rfl
  | cons r t ih =>
    have hxr : x ≠ r := fun he => hx (he ▸ List.mem_cons_self r t)
    have hxt : x ∉ t := fun hm => hx (List.mem_cons_of_mem r hm)
    simp only [truncateAllH, truncateOversizedRecordH]
    rw [ih _ hxt]
    simp [hset, hxr]

theorem truncateAllH_at (h : Heap) (rs : List Nat) (x : Nat)
    (hnd : rs.Nodup) (hx : x ∈ rs) :
    (truncateAllH h rs).1 x = truncateOversizedRecord (h x) := by
  induction rs generalizing h with
  | nil => cases hx
  | cons r t ih =>
    rcases List.mem_cons.mp hx with he | hm
    · subst he
      have hnt : x ∉ t := (List.nodup_cons.mp hnd).1
      simp only [truncateAllH, truncateOversizedRecordH]
      rw [truncateAllH_frame _ _ _ hnt]
      simp [hset]
    · have hxr : x ≠ r := fun he => ((List.nodup_cons.mp hnd).1 (he ▸ hm)).elim
      simp only [truncateAllH, truncateOversizedRecordH]
      rw [ih _ (List.nodup_cons.mp hnd).2 hm]
      simp [hset, hxr]

/-! General lemmas about the attempt loop. -/

theorem retryStep_retryable {e : JsError} (h : isRetryableError e = true)
    (s : FlushState) : retryStep e s = (true, s) := by
  simp [retryStep, h]

theorem runBackOff_retryable_then_ok (outcomes : Nat → Option JsError) :
    ∀ (k fuel calls : Nat) (s : FlushState),
      (∀ i, i < k → ∃ er, outcomes (calls + i) = some er ∧ isRetryableError er = true) →
      outcomes (calls + k) = none → k < fuel →
      runBackOff outcomes fuel calls s = (.success s, List.replicate (k + 1) s.recordsToWrite)
  | 0, fuel + 1, calls, s, _, hok, _ => by
    rw [Nat.add_zero] at hok
    simp [runBackOff, hok]
  | k + 1, fuel + 1, calls, s, hfail, hok, hk => by
    obtain ⟨er, her, hret⟩ := hfail 0 (Nat.succ_pos k)
    rw [Nat.add_zero] at her
    have hrec :=
      runBackOff_retryable_then_ok outcomes k fuel (calls + 1) s
        (fun i hi => by
          obtain ⟨er', her', hret'⟩ := hfail (i + 1) (by omega)
          exact ⟨er', by rw [← her']; ring_nf, hret'⟩)
        (by rw [← hok]; ring_nf)
        (by omega)
    have hfz : fuel ≠ 0 := by omega
    simp [runBackOff, her, retryStep_retryable hret, hfz, hrec, List.replicate_succ]

/-- C4: the truncation operation is idempotent: a size-sensitive field
(`input`, `output`, metadata values) at or under the threshold is left
untouched; a field over the threshold becomes a fixed-size prefix of itself
plus the truncation marker; after one application every size-sensitive field
is at most the threshold, and a second application changes nothing (so a
previously-oversized field carries the marker). -/
theorem truncation_idempotent (r : WriteRecord) :
    (∀ s : Str, r.input = some s → s.length ≤ maxFieldSize →
      (truncateOversizedRecord r).input = some s) ∧
    (∀ s : Str, r.output = some s → s.length ≤ maxFieldSize →
      (truncateOversizedRecord r).output = some s) ∧
    (∀ s : Str, r.input = some s → maxFieldSize < s.length →
      (truncateOversizedRecord r).input = some (s.take truncKeepSize ++ truncationMessage)) ∧
    (∀ s : Str, r.output = some s → maxFieldSize < s.length →
      (truncateOversizedRecord r).output = some (s.take truncKeepSize ++ truncationMessage)) ∧
    (∀ l : List (String × Str), r.metadata = some l →
      (truncateOversizedRecord r).metadata = some (l.map truncMetaEntry)) ∧
    (∀ kv : String × Str, kv.2.length ≤ maxFieldSize → truncMetaEntry kv = kv) ∧
    (∀ kv : String × Str, maxFieldSize < kv.2.length →
      truncMetaEntry kv = (kv.1, kv.2.take truncKeepSize ++ truncationMessage)) ∧
    (∀ s : Str, (truncateOversizedRecord r).input = some s → s.length ≤ maxFieldSize) ∧
    (∀ s : Str, (truncateOversizedRecord r).output = some s → s.length ≤ maxFieldSize) ∧
    (∀ l : List (String × Str), (truncateOversizedRecord r).metadata = some l →
      ∀ kv ∈ l, kv.2.length ≤ maxFieldSize) ∧
    truncateOversizedRecord (truncateOversizedRecord r) = truncateOversizedRecord r := by
  refine ⟨?_, ?_, ?_, ?_, ?_, ?_, ?_, ?_, ?_, ?_, truncateOversizedRecord_idem r⟩
  · intro s hs hle
    simp [truncateOversizedRecord, hs, truncTop_small hle]
  · intro s hs hle
    simp [truncateOversizedRecord, hs, truncTop_small hle]
  · intro s hs hlt
    simp [truncateOversizedRecord, hs, truncTop_big hlt]
  · intro s hs hlt
    simp [truncateOversizedRecord, hs, truncTop_big hlt]
  · intro l hl
    simp [truncateOversizedRecord, hl]
  · intro kv hle
    exact truncMetaEntry_small hle
  · intro kv hlt
    exact truncMetaEntry_big hlt
  · intro s hs
    exact truncTop_length ((by simp [truncateOversizedRecord] at hs; exact hs) :
      truncTop r.input = some s)
  · intro s hs
    exact truncTop_length ((by simp [truncateOversizedRecord] at hs; exact hs) :
      truncTop r.output = some s)
  · intro l hl kv hkv
    have : r.metadata.map (fun m => m.map truncMetaEntry) = some l := by
      simpa [truncateOversizedRecord] using hl
    match hm : r.metadata with
    | none => rw [hm] at this; simp at this
    | some m =>
      rw [hm] at this
      simp only [Option.map_some'] at this
      injection this with this
      rw [← this] at hkv
      obtain ⟨kv0, -, hkv0⟩ := List.mem_map.mp hkv
      rw [← hkv0]
      exact truncMetaEntry_length kv0

/-- Witness for C4 at a concrete record: the small `input` field of `recA`
is untouched and truncation is idempotent there. -/
theorem truncation_idempotent_witness :
    (truncateOversizedRecord recA).input = some "hello".data ∧
    truncateOversizedRecord (truncateOversizedRecord recA) = truncateOversizedRecord recA := by
  obtain ⟨h1, -, -, -, -, -, -, -, -, -, h11⟩ := truncation_idempotent recA
  exact ⟨h1 "hello".data rfl (by decide), h11⟩

/-- C7 counterexample: in the heap model of the size-error truncation branch
(`recordsToWrite.map(r => truncateOversizedRecord(...))`), the record object
referenced by the queued item `hItem0` is changed in place: the original
payload object held by the queue item IS mutated, contrary to the claim that
only a copy submitted to the backing store changes. -/
theorem truncation_copy_counterexample :
    (truncateAllH bigHeap [hItem0.dataRef]).1 hItem0.dataRef ≠ bigHeap hItem0.dataRef := by
  have h1 : (truncateAllH bigHeap [hItem0.dataRef]).1 hItem0.dataRef =
      truncateOversizedRecord bigRec := by
    simp [truncateAllH, truncateOversizedRecordH, hset, hItem0, bigHeap]
  have hlen : maxFieldSize < bigStr.length := by
    simp [bigStr, List.length_replicate]
  intro he
  rw [h1] at he
  have he2 : (truncateOversizedRecord bigRec).input = bigRec.input := by rw [he]; rfl
  have h3 : (truncateOversizedRecord bigRec).input =
      some (bigStr.take truncKeepSize ++ truncationMessage) := by
    simp [truncateOversizedRecord, bigRec, truncTop_big hlen]
  rw [h3, show bigRec.input = some bigStr from rfl] at he2
  injection he2 with he2
  have h5 := congrArg List.length he2
  rw [List.length_append, List.length_take, truncationMessage_length] at h5
  have hb : bigStr.length = maxFieldSize + 1 := by
    simp [bigStr, List.length_replicate]
  rw [hb] at h5
  simp only [truncKeepSize, maxFieldSize] at h5
  omega

/-- C7 (amended): field truncation during a flush cycle is applied in place to
the record object shared between the queue item and the submitted batch: after
the size-error truncation step, the heap cell referenced by an in-flight
item's `dataRef` holds the truncated record — the queue item's payload object
itself observes the truncation — while the reference list is rebuilt unchanged
and record objects outside the in-flight batch are untouched. -/
theorem truncation_in_place (h : Heap) (refs : List Nat) (it : HItem)
    (hnd : refs.Nodup) (hmem : it.dataRef ∈ refs) :
    (truncateAllH h refs).2 = refs ∧
    (truncateAllH h refs).1 it.dataRef = truncateOversizedRecord (h it.dataRef) ∧
    (∀ x, x ∉ refs → (truncateAllH h refs).1 x = h x) :=
  ⟨truncateAllH_refs h refs, truncateAllH_at h refs it.dataRef hnd hmem,
   fun x hx => truncateAllH_frame h refs x hx⟩

/-- Witness for C7's amended theorem at a concrete heap: the cell referenced
by the queued item is truncated in place, an unrelated cell is untouched. -/
theorem truncation_in_place_witness :
    (truncateAllH bigHeap [0]).2 = [0] ∧
    (truncateAllH bigHeap [0]).1 hItem0.dataRef = truncateOversizedRecord bigRec ∧
    (truncateAllH bigHeap [0]).1 7 = bigRec := by
  have h := truncation_in_place bigHeap [0] hItem0 (by decide) (by decide)
  exact ⟨h.1, by simpa [bigHeap] using h.2.1, by simpa [bigHeap] using h.2.2 7 (by decide)⟩

/-- C6: the error classifier is total and fail-closed: an error matching none
of the known signatures classifies as fatal, and on a fatal classification the
retry callback returns false with the cycle state untouched, so the attempt
loop throws at once — no further retry, split, or truncation in the cycle. -/
theorem classifier_fail_closed (e : JsError)
    (hR : isRetryableError e = false) (hL : isStringLengthError e = false)
    (hS : isSizeError e = false) :
    classify e = .fatal ∧
    (∀ s : FlushState, retryStep e s = (false, s)) ∧
    (∀ fuel calls : Nat, ∀ s : FlushState,
      runBackOff (fun _ => some e) (fuel + 1) calls s = (.failure e s, [s.recordsToWrite])) := by
  refine ⟨by simp [classify, hR, hL, hS], fun s => by simp [retryStep, hR, hL, hS], ?_⟩
  intro fuel calls s
  simp [runBackOff, retryStep, hR, hL, hS]

/-- Witness for C6 at a concrete unrecognized error. -/
theorem classifier_fail_closed_witness :
    classify fatalErr = .fatal ∧
    retryStep fatalErr ⟨[itemA], [recA], false, []⟩ = (false, ⟨[itemA], [recA], false, []⟩) ∧
    runBackOff (fun _ => some fatalErr) 1 0 ⟨[itemA], [recA], false, []⟩ =
      (.failure fatalErr ⟨[itemA], [recA], false, []⟩, [[recA]]) := by
  have h := classifier_fail_closed fatalErr (by decide) (by decide) (by decide)
  exact ⟨h.1, h.2.1 _, h.2.2 0 0 _⟩

/-- C10: a thrown value that is null, undefined, or not an object — a bare
string, a number, a boolean — satisfies none of the three classification
predicates, classifies as fatal, and makes the retry callback return false, so
the attempt loop stops at once with no retry, split, or truncation. -/
theorem non_object_error_fatal (s : Str) (n : Int) (b : Bool) (st : FlushState)
    (fuel calls : Nat) :
    isRetryableError .nullv = false ∧ isSizeError .nullv = false ∧
    isStringLengthError .nullv = false ∧ classify .nullv = .fatal ∧
    retryStep .nullv st = (false, st) ∧
    isRetryableError .undef = false ∧ isSizeError .undef = false ∧
    isStringLengthError .undef = false ∧ classify .undef = .fatal ∧
    retryStep .undef st = (false, st) ∧
    isRetryableError (.str s) = false ∧ isSizeError (.str s) = false ∧
    isStringLengthError (.str s) = false ∧ classify (.str s) = .fatal ∧
    retryStep (.str s) st = (false, st) ∧
    isRetryableError (.num n) = false ∧ isSizeError (.num n) = false ∧
    isStringLengthError (.num n) = false ∧ classify (.num n) = .fatal ∧
    retryStep (.num n) st = (false, st) ∧
    isRetryableError (.boolv b) = false ∧ isSizeError (.boolv b) = false ∧
    isStringLengthError (.boolv b) = false ∧ classify (.boolv b) = .fatal ∧
    retryStep (.boolv b) st = (false, st) ∧
    runBackOff (fun _ => some (.str s)) (fuel + 1) calls st =
      (.failure (.str s) st, [st.recordsToWrite]) := by
  refine ⟨rfl, rfl, rfl, rfl, rfl, rfl, rfl, rfl, rfl, rfl, rfl, rfl, rfl, rfl, rfl,
    rfl, rfl, rfl, rfl, rfl, rfl, rfl, rfl, rfl, rfl, ?_⟩
  simp [runBackOff, retryStep, isRetryableError, isStringLengthError, isSizeError]

/-- C1: on a string-overflow failure, an in-flight batch of n > 1 items is
split at floor(n/2): the first half is retained for the attempt loop, the
second half goes to the front of the destination queue, and the loop continues
with the retained half; a single-item batch is not split — its record is
truncated and retried.  For a 4-item batch the split is 2 retained plus 2
requeued at the front. -/
theorem string_overflow_split (e : JsError)
    (hL : isStringLengthError e = true) (hR : isRetryableError e = false) :
    (∀ a b : Item, ∀ rest : List Item,
      handleStringLengthError (a :: b :: rest) =
        ((a :: b :: rest).take ((a :: b :: rest).length / 2),
         (a :: b :: rest).drop ((a :: b :: rest).length / 2))) ∧
    (∀ a b : Item, ∀ rest : List Item, ∀ rW : List WriteRecord, ∀ flag : Bool, ∀ q : List Item,
      retryStep e ⟨a :: b :: rest, rW, flag, q⟩ =
        (true,
          ⟨(a :: b :: rest).take ((a :: b :: rest).length / 2),
           ((a :: b :: rest).take ((a :: b :: rest).length / 2)).map (fun it => it.data),
           flag,
           (a :: b :: rest).drop ((a :: b :: rest).length / 2) ++ q⟩)) ∧
    (∀ outcomes : Nat → Option JsError, ∀ fuel calls : Nat, ∀ s : FlushState,
      outcomes calls = some e →
      runBackOff outcomes (fuel + 2) calls s =
        ((runBackOff outcomes (fuel + 1) (calls + 1) (retryStep e s).2).1,
         s.recordsToWrite :: (runBackOff outcomes (fuel + 1) (calls + 1) (retryStep e s).2).2)) ∧
    (∀ it : Item,
      handleStringLengthError [it] = ([{ it with data := truncateOversizedRecord it.data }], [])) ∧
    (∀ it : Item, ∀ rW : List WriteRecord, ∀ flag : Bool, ∀ q : List Item,
      retryStep e ⟨[it], rW, flag, q⟩ =
        (true, ⟨[{ it with data := truncateOversizedRecord it.data }],
                [truncateOversizedRecord it.data], flag, q⟩)) ∧
    (∀ a b c d : Item, handleStringLengthError [a, b, c, d] = ([a, b], [c, d])) := by
  have hsplit : ∀ a b : Item, ∀ rest : List Item,
      handleStringLengthError (a :: b :: rest) =
        ((a :: b :: rest).take ((a :: b :: rest).length / 2),
         (a :: b :: rest).drop ((a :: b :: rest).length / 2)) := by
    intro a b rest
    rfl
  have hone : ∀ p : Bool × FlushState, p.1 = true → p = (true, p.2) := by
    intro p hp
    rw [← hp]
  have hstep1 : ∀ s : FlushState, (retryStep e s).1 = true := by
    intro s
    simp [retryStep, hR, hL]
  refine ⟨hsplit, ?_, ?_, fun it => rfl, ?_, ?_⟩
  · intro a b rest rW flag q
    simp [retryStep, hR, hL, hsplit a b rest]
  · intro outcomes fuel calls s hc
    conv_lhs => rw [runBackOff]
    rw [hc]
    simp only []
    rw [hone (retryStep e s) (hstep1 s)]
    simp [Nat.succ_ne_zero]
  · intro it rW flag q
    simp [retryStep, hR, hL, handleStringLengthError]
  · intro a b c d
    rw [hsplit a b [c, d]]
    simp

/-- Witness for C1: a concrete 4-item batch splits 2 + 2 with the requeued
half at the front of the queue; a singleton batch falls back to truncation. -/
theorem string_overflow_split_witness :
    handleStringLengthError [itemA, itemB, itemC, itemD] = ([itemA, itemB], [itemC, itemD]) ∧
    retryStep strLenErr ⟨[itemA, itemB, itemC, itemD], [recA, recB, recA, recB], false, [itemOld]⟩ =
      (true, ⟨[itemA, itemB], [recA, recB], false, [itemC, itemD, itemOld]⟩) ∧
    handleStringLengthError [itemA] =
      ([{ itemA with data := truncateOversizedRecord itemA.data }], []) := by
  have h := string_overflow_split strLenErr (by decide) (by decide)
  refine ⟨h.2.2.2.2.2 itemA itemB itemC itemD, ?_, h.2.2.2.1 itemA⟩
  rw [h.2.1 itemA itemB [itemC, itemD] [recA, recB, recA, recB] false [itemOld]]
  decide

/-- C2: truncation from an oversized-payload error is applied at most once per
cycle: with the truncated-this-cycle flag clear, a size failure truncates
every in-flight record, sets the flag, and retries; with the flag set, a size
failure ends the attempt loop; hence against a store that always answers with
a size error the loop makes exactly two calls — the original batch, then the
once-truncated batch — and then gives up, whatever attempt budget remains. -/
theorem size_error_truncate_once (e : JsError)
    (hS : isSizeError e = true) (hR : isRetryableError e = false)
    (hL : isStringLengthError e = false) :
    (∀ items : List Item, ∀ rW : List WriteRecord, ∀ q : List Item,
      retryStep e ⟨items, rW, false, q⟩ =
        (true, ⟨items.map (fun it => { it with data := truncateOversizedRecord it.data }),
                rW.map truncateOversizedRecord, true, q⟩)) ∧
    (∀ items : List Item, ∀ rW : List WriteRecord, ∀ q : List Item,
      retryStep e ⟨items, rW, true, q⟩ = (false, ⟨items, rW, true, q⟩)) ∧
    (∀ fuel calls : Nat, ∀ items : List Item, ∀ rW : List WriteRecord, ∀ q : List Item,
      runBackOff (fun _ => some e) (fuel + 2) calls ⟨items, rW, false, q⟩ =
        (.failure e ⟨items.map (fun it => { it with data := truncateOversizedRecord it.data }),
                     rW.map truncateOversizedRecord, true, q⟩,
         [rW, rW.map truncateOversizedRecord])) := by
  have h1 : ∀ items : List Item, ∀ rW : List WriteRecord, ∀ q : List Item,
      retryStep e ⟨items, rW, false, q⟩ =
        (true, ⟨items.map (fun it => { it with data := truncateOversizedRecord it.data }),
                rW.map truncateOversizedRecord, true, q⟩) := by
    intro items rW q
    simp [retryStep, hR, hL, hS]
  have h2 : ∀ items : List Item, ∀ rW : List WriteRecord, ∀ q : List Item,
      retryStep e ⟨items, rW, true, q⟩ = (false, ⟨items, rW, true, q⟩) := by
    intro items rW q
    simp [retryStep, hR, hL, hS]
  refine ⟨h1, h2, ?_⟩
  intro fuel calls items rW q
  have hu : fuel + 2 = (fuel + 1) + 1 := rfl
  rw [hu]
  conv_lhs => rw [runBackOff]
  simp only [h1, Nat.succ_ne_zero]
  conv_lhs => rw [runBackOff]
  simp [h2]

/-- Witness for C2 at a concrete size error and batch. -/
theorem size_error_truncate_once_witness :
    retryStep sizeErr ⟨[itemA], [recA], false, [itemB]⟩ =
      (true, ⟨[itemA], [recA], true, [itemB]⟩) ∧
    retryStep sizeErr ⟨[itemA], [recA], true, [itemB]⟩ =
      (false, ⟨[itemA], [recA], true, [itemB]⟩) ∧
    runBackOff (fun _ => some sizeErr) 5 0 ⟨[itemA], [recA], false, []⟩ =
      (.failure sizeErr ⟨[itemA], [recA], true, []⟩, [[recA], [recA]]) := by
  have h := size_error_truncate_once sizeErr (by decide) (by decide) (by decide)
  exact ⟨(h.1 [itemA] [recA] [itemB]).trans (by decide),
         h.2.1 [itemA] [recA] [itemB],
         (h.2.2 3 0 [itemA] [recA] []).trans (by decide)⟩

/-- A cycle that did not succeed ends by requeueing or dropping its
outstanding items via the catch block. -/
theorem finishCycle_failure (mA : Nat) (r : BackOffEnd × List (List WriteRecord))
    (hf : (finishCycle mA r).succeeded = false) :
    (finishCycle mA r).queue =
      (finishCycle mA r).remQueue ++ (requeueOrDrop mA (finishCycle mA r).finalItems).1 ∧
    (finishCycle mA r).dropped = (requeueOrDrop mA (finishCycle mA r).finalItems).2 := by
  obtain ⟨re, rlog⟩ := r
  cases re with
  | success s => simp [finishCycle] at hf
  | failure e s => exact ⟨rfl, rfl⟩

/-- Attempts are preserved pointwise by `handleStringLengthError`. -/
theorem handleStringLengthError_attempts (items : List Item) :
    ((handleStringLengthError items).1 ++ (handleStringLengthError items).2).map
        (fun it => it.attempts) =
      items.map (fun it => it.attempts) := by
  match items with
  | [] => simp [handleStringLengthError]
  | [it] => simp [handleStringLengthError]
  | a :: b :: rest =>
    have h : handleStringLengthError (a :: b :: rest) =
        ((a :: b :: rest).take ((a :: b :: rest).length / 2),
         (a :: b :: rest).drop ((a :: b :: rest).length / 2)) := rfl
    rw [h]
    rw [List.take_append_drop]

/-- C3: when a cycle exhausts its attempts, each outstanding item with
attempts below `maxAttempts` is re-appended at the back of the queue as a copy
with attempts + 1, and every other item is dropped and counted — so an item is
dropped exactly when its attempts counter has reached `maxAttempts`; attempts
is never changed by in-attempt retries or mid-cycle split requeues, and items
enter the queue with attempts = 1, so attempts is non-decreasing and grows by
exactly 1 per cycle-level requeue. -/
theorem attempts_requeue_drop :
    (∀ maxAttempts : Nat, ∀ items : List Item,
      (requeueOrDrop maxAttempts items).1 =
        (items.filter (fun it => decide (it.attempts < maxAttempts))).map
          (fun it => { it with attempts := it.attempts + 1 }) ∧
      (requeueOrDrop maxAttempts items).2 =
        (items.filter (fun it => decide (¬ it.attempts < maxAttempts))).length) ∧
    (∀ outcomes : Nat → Option JsError, ∀ nA mA bS : Nat, ∀ fq : Bool, ∀ q0 : List Item,
      (flushCycle outcomes nA mA bS fq q0).succeeded = false →
      (flushCycle outcomes nA mA bS fq q0).queue =
        (flushCycle outcomes nA mA bS fq q0).remQueue ++
          (requeueOrDrop mA (flushCycle outcomes nA mA bS fq q0).finalItems).1 ∧
      (flushCycle outcomes nA mA bS fq q0).dropped =
        (requeueOrDrop mA (flushCycle outcomes nA mA bS fq q0).finalItems).2) ∧
    (∀ e : JsError, ∀ s : FlushState,
      ((retryStep e s).2.queueItems ++ (retryStep e s).2.queue).map (fun it => it.attempts) =
        (s.queueItems ++ s.queue).map (fun it => it.attempts)) ∧
    (∀ bS now : Nat, ∀ q : List Item, ∀ d : WriteRecord,
      (addToQueue bS now q d).1 = q ++ [{ createdAt := now, attempts := 1, data := d }]) := by
  refine ⟨?_, ?_, ?_, fun bS now q d => rfl⟩
  · intro mA items
    induction items with
    | nil => exact ⟨rfl, rfl⟩
    | cons it rest ih =>
      by_cases h : it.attempts < mA
      · have h' : ¬ mA ≤ it.attempts := by omega
        simp [requeueOrDrop, h, h', ih.1, ih.2, List.filter_cons]
      · have h' : mA ≤ it.attempts := by omega
        simp [requeueOrDrop, h, h', ih.1, ih.2, List.filter_cons]
  · intro outcomes nA mA bS fq q0 hf
    by_cases hq : q0.length = 0
    · rw [show flushCycle outcomes nA mA bS fq q0 =
          { queue := q0, dropped := 0, log := [], succeeded := true
            finalItems := [], finalRecords := [], truncatedFlag := false, remQueue := q0 } from by
        simp [flushCycle, hq]] at hf
      simp at hf
    · rw [show flushCycle outcomes nA mA bS fq q0 =
          finishCycle mA
            (runBackOff outcomes nA 0
              { queueItems := q0.take (if fq then q0.length else bS)
                recordsToWrite := (q0.take (if fq then q0.length else bS)).map (fun it => it.data)
                hasBeenTruncated := false
                queue := q0.drop (if fq then q0.length else bS) }) from by
        simp [flushCycle, hq]] at hf ⊢
      exact finishCycle_failure mA _ hf
  · intro e s
    by_cases h1 : isRetryableError e = true
    · simp [retryStep, h1]
    · by_cases h2 : isStringLengthError e = true
      · have hr : retryStep e s =
            (true,
              ⟨(handleStringLengthError s.queueItems).1,
               (handleStringLengthError s.queueItems).1.map (fun it => it.data),
               s.hasBeenTruncated,
               (handleStringLengthError s.queueItems).2 ++ s.queue⟩) := by
          simp [retryStep, h1, h2]
        rw [hr]
        have hh := handleStringLengthError_attempts s.queueItems
        dsimp only
        rw [← List.append_assoc, List.map_append, hh, ← List.map_append]
      · by_cases h3 : (isSizeError e && !s.hasBeenTruncated) = true
        · simp [retryStep, h1, h2, h3, List.map_map, Function.comp]
        · simp [retryStep, h1, h2, h3]

/-- Witness for C3 at a failing cycle holding one fresh and one exhausted
item: the fresh item is requeued with attempts 2, the exhausted one dropped. -/
theorem attempts_requeue_drop_witness :
    (flushCycle (fun _ => some fatalErr) 3 3 10 false [itemA, itemOld]).succeeded = false ∧
    (flushCycle (fun _ => some fatalErr) 3 3 10 false [itemA, itemOld]).queue =
      [{ itemA with attempts := 2 }] ∧
    (flushCycle (fun _ => some fatalErr) 3 3 10 false [itemA, itemOld]).dropped = 1 := by
  have h2 := attempts_requeue_drop.2.1 (fun _ => some fatalErr) 3 3 10 false [itemA, itemOld]
    (by decide)
  exact ⟨by decide, h2.1.trans (by decide), h2.2.trans (by decide)⟩

/-- C5: against a backing store that fails with retryable-transient errors
exactly k times (k below the in-cycle attempt cap) and then succeeds, the
cycle issues exactly k + 1 calls, each carrying the same unmutated batch, and
ends with no item dropped and no item requeued. -/
theorem retryable_exactly_k_plus_one (outcomes : Nat → Option JsError)
    (k nA mA bS : Nat) (fq : Bool) (q0 : List Item)
    (hfail : ∀ i, i < k → ∃ er, outcomes i = some er ∧ isRetryableError er = true)
    (hok : outcomes k = none) (hk : k < nA) (hq : q0 ≠ []) :
    (flushCycle outcomes nA mA bS fq q0).succeeded = true ∧
    (flushCycle outcomes nA mA bS fq q0).log =
      List.replicate (k + 1) ((q0.take (if fq then q0.length else bS)).map (fun it => it.data)) ∧
    (flushCycle outcomes nA mA bS fq q0).queue = q0.drop (if fq then q0.length else bS) ∧
    (flushCycle outcomes nA mA bS fq q0).dropped = 0 := by
  have hlen : ¬ q0.length = 0 := by
    simpa [List.length_eq_zero] using hq
  have hrun := runBackOff_retryable_then_ok outcomes k nA 0
    ⟨q0.take (if fq then q0.length else bS),
     (q0.take (if fq then q0.length else bS)).map (fun it => it.data), false,
     q0.drop (if fq then q0.length else bS)⟩
    (fun i hi => by simpa using hfail i hi) (by simpa using hok) hk
  rw [show flushCycle outcomes nA mA bS fq q0 =
      finishCycle mA
        (runBackOff outcomes nA 0
          { queueItems := q0.take (if fq then q0.length else bS)
            recordsToWrite := (q0.take (if fq then q0.length else bS)).map (fun it => it.data)
            hasBeenTruncated := false
            queue := q0.drop (if fq then q0.length else bS) }) from by
    simp [flushCycle, hlen]]
  rw [hrun]
  exact ⟨rfl, rfl, rfl, rfl⟩

/-- Witness for C5 with one retryable failure then success. -/
theorem retryable_exactly_k_plus_one_witness :
    (flushCycle oracleRetryOnce 2 3 10 false [itemA]).succeeded = true ∧
    (flushCycle oracleRetryOnce 2 3 10 false [itemA]).log = [[recA], [recA]] ∧
    (flushCycle oracleRetryOnce 2 3 10 false [itemA]).queue = [] ∧
    (flushCycle oracleRetryOnce 2 3 10 false [itemA]).dropped = 0 := by
  have h := retryable_exactly_k_plus_one oracleRetryOnce 1 2 3 10 false [itemA]
    (fun i hi => by
      have hi0 : i = 0 := by omega
      subst hi0
      exact ⟨socketErr, by decide⟩)
    (by decide) (by decide) (by decide)
  exact ⟨h.1, h.2.1.trans (by decide), h.2.2.1.trans (by decide), h.2.2.2⟩

/-- C9: `shutdown` cancels the interval timer and performs one full-queue
drain of every destination; for a destination with more queued items than the
batch size and a healthy backing store, the drain submits all queued records
in a single full-queue batch, drops nothing, and leaves that queue empty. -/
theorem shutdown_drains (oracles : TableName → Nat → Option JsError)
    (nA mA bS : Nat) (w : WriterState) (t : TableName)
    (hok : oracles t 0 = none) (hK : bS < (w.queue t).length) (hnA : 1 ≤ nA) :
    ((shutdownWriter oracles nA mA bS w).1).intervalActive = false ∧
    ((shutdownWriter oracles nA mA bS w).1).queue t = [] ∧
    ((shutdownWriter oracles nA mA bS w).2 t).succeeded = true ∧
    ((shutdownWriter oracles nA mA bS w).2 t).log = [(w.queue t).map (fun it => it.data)] ∧
    ((shutdownWriter oracles nA mA bS w).2 t).dropped = 0 := by
  obtain ⟨f, rfl⟩ : ∃ f, nA = f + 1 := ⟨nA - 1, by omega⟩
  have hne : ¬ (w.queue t).length = 0 := by omega
  have htake : (w.queue t).take ((w.queue t).length) = w.queue t := List.take_length _
  have hdrop : (w.queue t).drop ((w.queue t).length) = [] := List.drop_length _
  have hrun : runBackOff (oracles t) (f + 1) 0
      ⟨w.queue t, (w.queue t).map (fun it => it.data), false, []⟩ =
      (.success ⟨w.queue t, (w.queue t).map (fun it => it.data), false, []⟩,
       [(w.queue t).map (fun it => it.data)]) := by
    rw [runBackOff, hok]
  have hcycle : flushCycle (oracles t) (f + 1) mA bS true (w.queue t) =
      finishCycle mA
        (runBackOff (oracles t) (f + 1) 0
          ⟨w.queue t, (w.queue t).map (fun it => it.data), false, []⟩) := by
    rw [flushCycle, if_neg hne]
    simp only [if_true, htake, hdrop]
  have hout : (shutdownWriter oracles (f + 1) mA bS w).2 t =
      flushCycle (oracles t) (f + 1) mA bS true (w.queue t) := rfl
  have hq : (shutdownWriter oracles (f + 1) mA bS w).1.queue t =
      (flushCycle (oracles t) (f + 1) mA bS true (w.queue t)).queue := rfl
  refine ⟨rfl, ?_, ?_, ?_, ?_⟩
  · rw [hq, hcycle, hrun]
    rfl
  · rw [hout, hcycle, hrun]
    rfl
  · rw [hout, hcycle, hrun]
    rfl
  · rw [hout, hcycle, hrun]
    rfl

/-- Witness for C9: shutting down a writer holding 2 items per destination
with batch size 1 drains the sampled destination completely. -/
theorem shutdown_drains_witness :
    ((shutdownWriter oraclesOk 1 3 1 wSample).1).intervalActive = false ∧
    ((shutdownWriter oraclesOk 1 3 1 wSample).1).queue .traces = [] ∧
    ((shutdownWriter oraclesOk 1 3 1 wSample).2 .traces).succeeded = true ∧
    ((shutdownWriter oraclesOk 1 3 1 wSample).2 .traces).log = [[recA, recB]] ∧
    ((shutdownWriter oraclesOk 1 3 1 wSample).2 .traces).dropped = 0 := by
  have h := shutdown_drains oraclesOk 1 3 1 wSample .traces rfl (by decide) (by decide)
  exact ⟨h.1, h.2.1, h.2.2.1, h.2.2.2.1.trans (by decide), h.2.2.2.2⟩
